import Mathlib

/-
Verification of the PanWatch core pipeline against its specification.

The Python modules `src/core/strategy_engine.py`, `src/core/entry_candidates.py`
and `src/core/price_alert_engine.py` are shallowly embedded below: numeric
values become exact rationals (`ℚ`), nullable values become `Option`, ORM rows
become structures, and in-place row mutation becomes explicit row
transformation.  Python's `round` (banker's rounding) is modelled by
`pyRound`.  Display-only rounding of the factor-breakdown payload fields to 4
decimal places is elided where noted; every claim below compares quantities
that are exact at 4 decimals, so the elision is immaterial.
-/

namespace PanWatch

/-- Embedding of `_clamp(v, lo, hi) = max(lo, min(hi, v))`
    (strategy_engine.py line 218). -/
def clampQ (v lo hi : ℚ) : ℚ := max lo (min hi v)

/-- Computable floor of a rational (used to model Python's `int()`
    truncation of non-negative values and as the basis of `pyRound`). -/
def ratFloor (x : ℚ) : ℤ := x.num / (x.den : ℤ)

theorem ratFloor_eq_floor (x : ℚ) : ratFloor x = ⌊x⌋ := (Rat.floor_def).symm

/-- Python's `round()` on an exact rational: round half to even. -/
def pyRound (x : ℚ) : ℤ :=
  let f : ℤ := ratFloor x
  let frac : ℚ := x - (f : ℚ)
  if frac < 1/2 then f
  else if 1/2 < frac then f + 1
  else if f % 2 = 0 then f else f + 1

/-- Python's `round(x, 4)` on an exact rational. -/
def pyRound4 (x : ℚ) : ℚ := (pyRound (x * 10000) : ℚ) / 10000

theorem le_pyRound (x : ℚ) (n : ℤ) (h : (n : ℚ) ≤ x) : n ≤ pyRound x := by
  unfold pyRound
  simp only [ratFloor_eq_floor]
  have h1 : n ≤ ⌊x⌋ := Int.le_floor.mpr h
  split
  · omega
  · split
    · omega
    · split <;> omega

theorem pyRound_le (x : ℚ) (n : ℤ) (h : x ≤ (n : ℚ)) : pyRound x ≤ n := by
  unfold pyRound
  simp only [ratFloor_eq_floor]
  have h1 : ⌊x⌋ ≤ n := by
    have := Int.floor_le_floor h
    simpa using this
  have hfl : (⌊x⌋ : ℚ) ≤ x := Int.floor_le x
  split
  · omega
  · rename_i hge
    push_neg at hge
    have hlt : (⌊x⌋ : ℚ) + 1/2 ≤ x := by
      have : x - (⌊x⌋ : ℚ) ≥ 1/2 := hge
      linarith
    have hq : (⌊x⌋ : ℚ) < (n : ℚ) := by linarith
    have hz : ⌊x⌋ < n := by exact_mod_cast hq
    split
    · omega
    · split <;> omega

theorem clampQ_mem (v lo hi : ℚ) (h : lo ≤ hi) :
    lo ≤ clampQ v lo hi ∧ clampQ v lo hi ≤ hi := by
  unfold clampQ
  exact ⟨le_max_left _ _, max_le h (min_le_left _ _)⟩

/-
Outcome evaluation (§4.3 of the spec).

`evaluate_strategy_outcomes` (strategy_engine.py lines 1589-1663) and
`evaluate_entry_candidate_outcomes` (entry_candidates.py lines 1729-1806)
contain a textually identical per-(source, horizon) evaluation block.  The
inputs that block reads from a signal/candidate row and from the fetched
klines are gathered in `OutcomeInput`:
  - `entryLow`/`entryHigh`: the row's entry band,
  - `quotePrice`: `meta/payload -> quote -> current_price`,
  - `snapClose`: `_pick_close_on_or_before(klines, snap_day)`,
  - `targetPrice`/`stopLoss`: the row's plan prices.
-/

structure OutcomeInput where
  entryLow : Option ℚ
  entryHigh : Option ℚ
  quotePrice : Option ℚ
  snapClose : Option ℚ
  targetPrice : Option ℚ
  stopLoss : Option ℚ
deriving DecidableEq, Repr

/-- Base-price resolution chain (strategy_engine.py lines 1601-1614 and
    entry_candidates.py lines 1743-1755): entry-band midpoint, else one
    entry bound, else the aggregation-time quote, else the close on or
    before the snapshot day. -/
def resolveBasePrice (i : OutcomeInput) : Option ℚ :=
  match i.entryLow, i.entryHigh with
  | some lo, some hi => some ((lo + hi) / 2)
  | none, some hi => some hi
  | some lo, none => some lo
  | none, none =>
    match i.quotePrice with
    | some q => some q
    | none => i.snapClose

/-- The fields of an Outcome row that the evaluation block computes. -/
structure OutcomeRecord where
  basePrice : Option ℚ
  outcomeStatus : String
  returnPct : Option ℚ
  hitTarget : Option Bool
  hitStop : Option Bool
deriving DecidableEq, Repr

namespace StrategyEngine

/-- Embedding of strategy_engine.py lines 1601-1636: base-price resolution,
    `no_base_price` handling, return computation and status classification
    for one (signal, horizon) pair, given the resolved outcome close. -/
def classifyOutcome (i : OutcomeInput) (outcomePrice : ℚ) : OutcomeRecord :=
  match resolveBasePrice i with
  | none => ⟨none, "no_base_price", none, none, none⟩
  | some b =>
    if b ≤ 0 then ⟨some b, "no_base_price", none, none, none⟩
    else
      let ret := (outcomePrice - b) / b * 100
      let hitT : Bool :=
        match i.targetPrice with
        | some t => decide (t ≤ outcomePrice)
        | none => false
      let hitS : Bool :=
        match i.stopLoss with
        | some sp => decide (outcomePrice ≤ sp)
        | none => false
      let status := if hitT then "hit_target" else if hitS then "hit_stop" else "evaluated"
      ⟨some b, status, some ret, some hitT, some hitS⟩

end StrategyEngine

namespace EntryCandidates

/-- Embedding of entry_candidates.py lines 1743-1778: the same evaluation
    block as in the strategy engine, applied to an entry-candidate row. -/
def classifyOutcome (i : OutcomeInput) (outcomePrice : ℚ) : OutcomeRecord :=
  match resolveBasePrice i with
  | none => ⟨none, "no_base_price", none, none, none⟩
  | some b =>
    if b ≤ 0 then ⟨some b, "no_base_price", none, none, none⟩
    else
      let ret := (outcomePrice - b) / b * 100
      let hitT : Bool :=
        match i.targetPrice with
        | some t => decide (t ≤ outcomePrice)
        | none => false
      let hitS : Bool :=
        match i.stopLoss with
        | some sp => decide (outcomePrice ≤ sp)
        | none => false
      let status := if hitT then "hit_target" else if hitS then "hit_stop" else "evaluated"
      ⟨some b, status, some ret, some hitT, some hitS⟩

end EntryCandidates

/-- Claim C3: in both outcome evaluators, whenever an outcome close exists and
    a positive base price resolves, the recorded return is
    `(outcome - base)/base * 100` and the status is `hit_target` when
    `outcome ≥ target_price` (checked first), else `hit_stop` when
    `outcome ≤ stop_loss`, else `evaluated`. -/
theorem outcome_return_and_status (i : OutcomeInput) (outcomePrice b t sp : ℚ)
    (hb : resolveBasePrice i = some b) (hpos : 0 < b)
    (ht : i.targetPrice = some t) (hs : i.stopLoss = some sp) :
    StrategyEngine.classifyOutcome i outcomePrice =
      { basePrice := some b
        outcomeStatus :=
          if t ≤ outcomePrice then "hit_target"
          else if outcomePrice ≤ sp then "hit_stop"
          else "evaluated"
        returnPct := some ((outcomePrice - b) / b * 100)
        hitTarget := some (decide (t ≤ outcomePrice))
        hitStop := some (decide (outcomePrice ≤ sp)) } ∧
    EntryCandidates.classifyOutcome i outcomePrice =
      { basePrice := some b
        outcomeStatus :=
          if t ≤ outcomePrice then "hit_target"
          else if outcomePrice ≤ sp then "hit_stop"
          else "evaluated"
        returnPct := some ((outcomePrice - b) / b * 100)
        hitTarget := some (decide (t ≤ outcomePrice))
        hitStop := some (decide (outcomePrice ≤ sp)) } := by
  have hnle : ¬ b ≤ 0 := not_le.mpr hpos
  have hS : StrategyEngine.classifyOutcome i outcomePrice =
      { basePrice := some b
        outcomeStatus :=
          if t ≤ outcomePrice then "hit_target"
          else if outcomePrice ≤ sp then "hit_stop"
          else "evaluated"
        returnPct := some ((outcomePrice - b) / b * 100)
        hitTarget := some (decide (t ≤ outcomePrice))
        hitStop := some (decide (outcomePrice ≤ sp)) } := by
    unfold StrategyEngine.classifyOutcome
    rw [hb]
    simp only [hnle, if_false, ht, hs]
    by_cases h1 : t ≤ outcomePrice <;> by_cases h2 : outcomePrice ≤ sp <;>
      simp [h1, h2]
  have hEq : EntryCandidates.classifyOutcome i outcomePrice =
      StrategyEngine.classifyOutcome i outcomePrice := rfl
  exact ⟨hS, hEq.trans hS⟩

/-- Witness for C3 at the spec's example: entry band 100/100 (base 100),
    target 110, stop 90, horizon close 112 gives status `hit_target` and
    return 12.0. -/
theorem outcome_return_and_status_witness :
    resolveBasePrice ⟨some 100, some 100, none, none, some 110, some 90⟩ = some 100 ∧
    StrategyEngine.classifyOutcome ⟨some 100, some 100, none, none, some 110, some 90⟩ 112 =
      ⟨some 100, "hit_target", some 12, some true, some false⟩ := by
  refine ⟨by with_unfolding_all rfl, ?_⟩
  have h := (outcome_return_and_status
    ⟨some 100, some 100, none, none, some 110, some 90⟩ 112 100 110 90
    (by with_unfolding_all rfl) (by norm_num) rfl rfl).1
  rw [h]
  with_unfolding_all rfl

/-- Claim C9: in both outcome evaluators a resolved base price that is
    non-positive is treated exactly like a missing one: status
    `no_base_price`, null return, null hit flags. -/
theorem nonpositive_base_price_like_missing (i : OutcomeInput) (outcomePrice : ℚ)
    (h : ∀ b, resolveBasePrice i = some b → b ≤ 0) :
    (StrategyEngine.classifyOutcome i outcomePrice).outcomeStatus = "no_base_price" ∧
    (StrategyEngine.classifyOutcome i outcomePrice).returnPct = none ∧
    (StrategyEngine.classifyOutcome i outcomePrice).hitTarget = none ∧
    (StrategyEngine.classifyOutcome i outcomePrice).hitStop = none ∧
    (EntryCandidates.classifyOutcome i outcomePrice).outcomeStatus = "no_base_price" ∧
    (EntryCandidates.classifyOutcome i outcomePrice).returnPct = none ∧
    (EntryCandidates.classifyOutcome i outcomePrice).hitTarget = none ∧
    (EntryCandidates.classifyOutcome i outcomePrice).hitStop = none := by
  unfold StrategyEngine.classifyOutcome EntryCandidates.classifyOutcome
  cases hb : resolveBasePrice i with
  | none => simp
  | some b =>
    have hle : b ≤ 0 := h b hb
    simp [hle]

/-- Witness for C9: a candidate whose only resolvable base price is a
    zero quote price gets `no_base_price` with null return and flags. -/
theorem nonpositive_base_price_like_missing_witness :
    (∀ b, resolveBasePrice ⟨none, none, some 0, none, some 110, some 90⟩ = some b → b ≤ 0) ∧
    (StrategyEngine.classifyOutcome ⟨none, none, some 0, none, some 110, some 90⟩ 112).outcomeStatus
      = "no_base_price" ∧
    (EntryCandidates.classifyOutcome ⟨none, none, some 0, none, some 110, some 90⟩ 112).returnPct
      = none := by
  have hyp : ∀ b, resolveBasePrice ⟨none, none, some 0, none, some 110, some 90⟩ = some b → b ≤ 0 := by
    intro b hb
    have : (0 : ℚ) = b := by
      have h0 : resolveBasePrice ⟨none, none, some 0, none, some 110, some 90⟩ = some 0 := by
        with_unfolding_all rfl
      rw [h0] at hb
      exact Option.some.inj hb
    simp [← this]
  have h := nonpositive_base_price_like_missing
    ⟨none, none, some 0, none, some 110, some 90⟩ 112 hyp
  exact ⟨hyp, h.1, h.2.2.2.2.2.1⟩

/-
Outcome-evaluation run loop (claim C5).

`evaluate_strategy_outcomes` / `evaluate_entry_candidate_outcomes` iterate the
due sources and horizons, skipping any (source_id, horizon) pair present in
the `existing` key set (loaded from the outcome table for the listed
sources), and inserting an Outcome row otherwise; each insert also adds its
key to `existing`.  The DB session/commit plumbing is modelled by an explicit
state (key set, outcome table).  Horizon normalisation (`safe_horizons`) and
the snapshot-window query are modelled by the given lists.
-/

/-- The per-source data the evaluation loop reads: row id, snapshot day,
    entry band, aggregation-time quote, plan prices and the fetched klines
    as (day, close) pairs. -/
structure EvalSource where
  sourceId : ℕ
  snapDay : ℤ
  entryLow : Option ℚ
  entryHigh : Option ℚ
  quotePrice : Option ℚ
  targetPrice : Option ℚ
  stopLoss : Option ℚ
  klines : List (ℤ × ℚ)
deriving DecidableEq, Repr

/-- Embedding of `_pick_close_on_or_before` (strategy_engine.py lines
    252-271): sort by date ascending (Python's stable sort), walk backwards,
    return the first close dated on or before the target; `None` otherwise. -/
def pickCloseOnOrBefore (klines : List (ℤ × ℚ)) (target : ℤ) : Option ℚ :=
  let rows := List.insertionSort (fun a b => a.1 ≤ b.1) klines
  (rows.reverse.find? (fun p => decide (p.1 ≤ target))).map (fun p => p.2)

/-- One Outcome table row (the fields relevant to the claims). -/
structure OutcomeRow where
  sourceId : ℕ
  horizonDays : ℕ
  targetDate : ℤ
  outcomePrice : ℚ
  record : OutcomeRecord
deriving DecidableEq, Repr

def outKey (r : OutcomeRow) : ℕ × ℕ := (r.sourceId, r.horizonDays)

/-- Embedding of one (source, horizon) evaluation (strategy_engine.py lines
    1592-1662): skip when not yet due or when no outcome close resolves,
    otherwise build the Outcome row via the shared classification block. -/
def evalStep (today : ℤ) (s : EvalSource) (horizon : ℕ) : Option OutcomeRow :=
  if today < s.snapDay + horizon then none
  else
    match pickCloseOnOrBefore s.klines (s.snapDay + horizon) with
    | none => none
    | some outcomePrice =>
      some ⟨s.sourceId, horizon, s.snapDay + horizon, outcomePrice,
        StrategyEngine.classifyOutcome
          ⟨s.entryLow, s.entryHigh, s.quotePrice, pickCloseOnOrBefore s.klines s.snapDay,
            s.targetPrice, s.stopLoss⟩ outcomePrice⟩

/-- The mutable state of one evaluation run: the `existing` key set and the
    outcome table (inserts are appends; `db.add` never updates a row). -/
structure EvalState where
  existing : List (ℕ × ℕ)
  table : List OutcomeRow
deriving DecidableEq, Repr

/-- Lines 1589-1591 / 1729-1731: `if (s.id, horizon) in existing: continue`,
    else insert the computed row (if any) and record its key. -/
def evalPair (today : ℤ) (s : EvalSource) (h : ℕ) (st : EvalState) : EvalState :=
  if (s.sourceId, h) ∈ st.existing then st
  else
    match evalStep today s h with
    | none => st
    | some row => ⟨st.existing ++ [(s.sourceId, h)], st.table ++ [row]⟩

def evalHorizons (today : ℤ) (hs : List ℕ) (s : EvalSource) (st : EvalState) : EvalState :=
  hs.foldl (fun st h => evalPair today s h st) st

def evalSources (today : ℤ) (ss : List EvalSource) (hs : List ℕ) (st : EvalState) : EvalState :=
  ss.foldl (fun st s => evalHorizons today hs s st) st

/-- The `existing` set loaded at the start of a run: keys of outcome rows
    whose source id is among the listed sources (lines 1561-1566 /
    1703-1708). -/
def initialExisting (table : List OutcomeRow) (ss : List EvalSource) : List (ℕ × ℕ) :=
  (table.filter (fun r => ss.any (fun s => s.sourceId == r.sourceId))).map outKey

/-- One full evaluation run over the outcome table. -/
def runEval (today : ℤ) (table : List OutcomeRow) (ss : List EvalSource)
    (hs : List ℕ) : List OutcomeRow :=
  (evalSources today ss hs ⟨initialExisting table ss, table⟩).table

def countKey (k : ℕ × ℕ) (t : List OutcomeRow) : ℕ :=
  (t.filter (fun r => decide (outKey r = k))).length

theorem evalStep_key (today : ℤ) (s : EvalSource) (h : ℕ) (row : OutcomeRow)
    (he : evalStep today s h = some row) :
    row.sourceId = s.sourceId ∧ row.horizonDays = h := by
  unfold evalStep at he
  split at he
  · cases he
  · split at he
    · cases he
    · cases he
      exact ⟨rfl, rfl⟩

theorem evalPair_cases (today : ℤ) (s : EvalSource) (h : ℕ) (st : EvalState) :
    ((s.sourceId, h) ∈ st.existing ∧ evalPair today s h st = st) ∨
    (evalStep today s h = none ∧ evalPair today s h st = st) ∨
    ((s.sourceId, h) ∉ st.existing ∧ ∃ row, evalStep today s h = some row ∧
      outKey row = (s.sourceId, h) ∧
      evalPair today s h st = ⟨st.existing ++ [(s.sourceId, h)], st.table ++ [row]⟩) := by
  unfold evalPair
  split
  · rename_i hm
    exact Or.inl ⟨hm, rfl⟩
  · rename_i hnm
    split
    · rename_i hrow
      exact Or.inr (Or.inl ⟨hrow, rfl⟩)
    · rename_i row hrow
      right; right
      have hk := evalStep_key today s h row hrow
      refine ⟨hnm, row, hrow, ?_, rfl⟩
      simp [outKey, hk.1, hk.2]

theorem evalPair_existing_mono (today : ℤ) (s : EvalSource) (h : ℕ) (st : EvalState)
    (k : ℕ × ℕ) (hk : k ∈ st.existing) : k ∈ (evalPair today s h st).existing := by
  rcases evalPair_cases today s h st with ⟨_, heq⟩ | ⟨_, heq⟩ | ⟨_, row, _, _, heq⟩ <;>
    rw [heq]
  · exact hk
  · exact hk
  · exact List.mem_append_left _ hk

theorem evalHorizons_existing_mono (today : ℤ) (hs : List ℕ) (s : EvalSource)
    (st : EvalState) (k : ℕ × ℕ) (hk : k ∈ st.existing) :
    k ∈ (evalHorizons today hs s st).existing := by
  induction hs generalizing st with
  | nil => exact hk
  | cons h0 rest ih =>
    have : evalHorizons today (h0 :: rest) s st =
        evalHorizons today rest s (evalPair today s h0 st) := by
      simp [evalHorizons]
    rw [this]
    exact ih _ (evalPair_existing_mono today s h0 st k hk)

theorem evalSources_existing_mono (today : ℤ) (ss : List EvalSource) (hs : List ℕ)
    (st : EvalState) (k : ℕ × ℕ) (hk : k ∈ st.existing) :
    k ∈ (evalSources today ss hs st).existing := by
  induction ss generalizing st with
  | nil => exact hk
  | cons s0 rest ih =>
    have : evalSources today (s0 :: rest) hs st =
        evalSources today rest hs (evalHorizons today hs s0 st) := by
      simp [evalSources]
    rw [this]
    exact ih _ (evalHorizons_existing_mono today hs s0 st k hk)

theorem evalHorizons_covers (today : ℤ) (hs : List ℕ) (s : EvalSource) (st : EvalState)
    (h : ℕ) (hmem : h ∈ hs) :
    (s.sourceId, h) ∈ (evalHorizons today hs s st).existing ∨
      evalStep today s h = none := by
  induction hs generalizing st with
  | nil => cases hmem
  | cons h0 rest ih =>
    have hrw : evalHorizons today (h0 :: rest) s st =
        evalHorizons today rest s (evalPair today s h0 st) := by
      simp [evalHorizons]
    rw [hrw]
    rcases List.mem_cons.mp hmem with rfl | htail
    · rcases evalPair_cases today s h st with ⟨hm, heq⟩ | ⟨hnone, _⟩ | ⟨_, row, _, _, heq⟩
      · exact Or.inl (evalHorizons_existing_mono today rest s _ _
          (evalPair_existing_mono today s h st _ hm))
      · exact Or.inr hnone
      · left
        rw [heq]
        exact evalHorizons_existing_mono today rest s _ _
          (List.mem_append_right _ (List.mem_singleton.mpr rfl))
    · exact ih (evalPair today s h0 st) htail

theorem evalSources_covers (today : ℤ) (ss : List EvalSource) (hs : List ℕ)
    (st : EvalState) (s : EvalSource) (hsrc : s ∈ ss) (h : ℕ) (hh : h ∈ hs) :
    (s.sourceId, h) ∈ (evalSources today ss hs st).existing ∨
      evalStep today s h = none := by
  induction ss generalizing st with
  | nil => cases hsrc
  | cons s0 rest ih =>
    have hrw : evalSources today (s0 :: rest) hs st =
        evalSources today rest hs (evalHorizons today hs s0 st) := by
      simp [evalSources]
    rw [hrw]
    rcases List.mem_cons.mp hsrc with rfl | htail
    · rcases evalHorizons_covers today hs s st h hh with hin | hnone
      · exact Or.inl (evalSources_existing_mono today rest hs _ _ hin)
      · exact Or.inr hnone
    · exact ih _ htail

theorem evalPair_noop (today : ℤ) (s : EvalSource) (h : ℕ) (st : EvalState)
    (hc : (s.sourceId, h) ∈ st.existing ∨ evalStep today s h = none) :
    evalPair today s h st = st := by
  unfold evalPair
  rcases hc with hm | hn
  · rw [if_pos hm]
  · split
    · rfl
    · rw [hn]

theorem evalHorizons_noop (today : ℤ) (hs : List ℕ) (s : EvalSource) (st : EvalState)
    (hc : ∀ h ∈ hs, (s.sourceId, h) ∈ st.existing ∨ evalStep today s h = none) :
    evalHorizons today hs s st = st := by
  induction hs with
  | nil => rfl
  | cons h0 rest ih =>
    have hrw : evalHorizons today (h0 :: rest) s st =
        evalHorizons today rest s (evalPair today s h0 st) := by
      simp [evalHorizons]
    rw [hrw, evalPair_noop today s h0 st (hc h0 (List.mem_cons_self _ _))]
    exact ih (fun h hm => hc h (List.mem_cons_of_mem _ hm))

theorem evalSources_noop (today : ℤ) (ss : List EvalSource) (hs : List ℕ) (st : EvalState)
    (hc : ∀ s ∈ ss, ∀ h ∈ hs, (s.sourceId, h) ∈ st.existing ∨ evalStep today s h = none) :
    evalSources today ss hs st = st := by
  induction ss with
  | nil => rfl
  | cons s0 rest ih =>
    have hrw : evalSources today (s0 :: rest) hs st =
        evalSources today rest hs (evalHorizons today hs s0 st) := by
      simp [evalSources]
    rw [hrw, evalHorizons_noop today hs s0 st (hc s0 (List.mem_cons_self _ _))]
    exact ih (fun s hm => hc s (List.mem_cons_of_mem _ hm))

theorem initialExisting_append (t d : List OutcomeRow) (ss : List EvalSource) :
    initialExisting (t ++ d) ss = initialExisting t ss ++ initialExisting d ss := by
  simp [initialExisting, List.filter_append]

theorem countKey_append (k : ℕ × ℕ) (t d : List OutcomeRow) :
    countKey k (t ++ d) = countKey k t + countKey k d := by
  simp [countKey, List.filter_append]

/-- The run invariant for claim C5: keys already present for listed sources
    stay recorded with an unchanged row count, every recorded key is backed
    by a table row of a listed source, and the table only grows by appends. -/
def EvalInv (ss : List EvalSource) (table0 : List OutcomeRow) (st : EvalState) : Prop :=
  (∀ k ∈ initialExisting table0 ss, k ∈ st.existing ∧ countKey k st.table = countKey k table0) ∧
  (∀ k ∈ st.existing, k ∈ initialExisting st.table ss) ∧
  (∃ d, st.table = table0 ++ d)

theorem evalPair_inv (today : ℤ) (ss : List EvalSource) (table0 : List OutcomeRow)
    (s : EvalSource) (hsrc : s ∈ ss) (h : ℕ) (st : EvalState)
    (hi : EvalInv ss table0 st) : EvalInv ss table0 (evalPair today s h st) := by
  rcases evalPair_cases today s h st with ⟨_, heq⟩ | ⟨_, heq⟩ | ⟨hnm, row, _, hkey, heq⟩
  · rw [heq]; exact hi
  · rw [heq]; exact hi
  · rw [heq]
    obtain ⟨h1, h2, d0, h3⟩ := hi
    refine ⟨?_, ?_, ?_⟩
    · intro k hk
      obtain ⟨hk1, hk2⟩ := h1 k hk
      refine ⟨List.mem_append_left _ hk1, ?_⟩
      rw [countKey_append]
      have hne : outKey row ≠ k := by
        intro hcontra
        rw [hkey] at hcontra
        rw [hcontra] at hnm
        exact hnm hk1
      have : countKey k [row] = 0 := by
        simp [countKey, hne]
      omega
    · intro k hk
      rcases List.mem_append.mp hk with hold | hnew
      · have := h2 k hold
        rw [initialExisting_append]
        exact List.mem_append_left _ this
      · rw [List.mem_singleton.mp hnew, initialExisting_append]
        refine List.mem_append_right _ ?_
        have hsid : row.sourceId = s.sourceId := by
          simpa [outKey] using congrArg Prod.fst hkey
        have hmatch : (ss.any (fun s2 => s2.sourceId == row.sourceId)) = true := by
          rw [hsid]
          exact List.any_eq_true.mpr ⟨s, hsrc, by simp⟩
        have hinit : initialExisting [row] ss = [outKey row] := by
          simp [initialExisting, hmatch]
        rw [hinit, hkey]
        exact List.mem_singleton.mpr rfl
    · exact ⟨d0 ++ [row], by rw [h3, List.append_assoc]⟩

theorem evalHorizons_inv (today : ℤ) (ss : List EvalSource) (table0 : List OutcomeRow)
    (hs : List ℕ) (s : EvalSource) (hsrc : s ∈ ss) (st : EvalState)
    (hi : EvalInv ss table0 st) : EvalInv ss table0 (evalHorizons today hs s st) := by
  induction hs generalizing st with
  | nil => exact hi
  | cons h0 rest ih =>
    have hrw : evalHorizons today (h0 :: rest) s st =
        evalHorizons today rest s (evalPair today s h0 st) := by
      simp [evalHorizons]
    rw [hrw]
    exact ih _ (evalPair_inv today ss table0 s hsrc h0 st hi)

theorem evalSources_inv (today : ℤ) (ss : List EvalSource) (table0 : List OutcomeRow)
    (ss1 : List EvalSource) (hsub : ∀ x ∈ ss1, x ∈ ss) (hs : List ℕ) (st : EvalState)
    (hi : EvalInv ss table0 st) : EvalInv ss table0 (evalSources today ss1 hs st) := by
  induction ss1 generalizing st with
  | nil => exact hi
  | cons s0 rest ih =>
    have hrw : evalSources today (s0 :: rest) hs st =
        evalSources today rest hs (evalHorizons today hs s0 st) := by
      simp [evalSources]
    rw [hrw]
    exact ih (fun x hx => hsub x (List.mem_cons_of_mem _ hx)) _
      (evalHorizons_inv today ss table0 hs s0 (hsub s0 (List.mem_cons_self _ _)) st hi)

/-- Claim C5: outcome evaluation is insert-only and idempotent. A run only
    appends rows (existing rows are never recomputed or overwritten), a
    (source_id, horizon) pair that already has a row gains no second row,
    and a second identical run leaves the table exactly as it was. -/
theorem outcome_eval_insert_once (today : ℤ) (table : List OutcomeRow)
    (ss : List EvalSource) (hs : List ℕ) :
    (∃ d, runEval today table ss hs = table ++ d) ∧
    (∀ k, k ∈ initialExisting table ss →
      countKey k (runEval today table ss hs) = countKey k table) ∧
    runEval today (runEval today table ss hs) ss hs = runEval today table ss hs := by
  have hinv0 : EvalInv ss table ⟨initialExisting table ss, table⟩ := by
    refine ⟨fun k hk => ⟨hk, rfl⟩, fun k hk => hk, ⟨[], by simp⟩⟩
  have hinv := evalSources_inv today ss table ss (fun x hx => hx) hs
    ⟨initialExisting table ss, table⟩ hinv0
  obtain ⟨hinv1, hinv2, hinv3⟩ := hinv
  refine ⟨hinv3, fun k hk => (hinv1 k hk).2, ?_⟩
  -- Second run: every processed pair is either already keyed or still skipped.
  set st1 := evalSources today ss hs ⟨initialExisting table ss, table⟩ with hst1
  have hcover : ∀ s ∈ ss, ∀ h ∈ hs,
      (s.sourceId, h) ∈ initialExisting st1.table ss ∨ evalStep today s h = none := by
    intro s hsrc h hh
    rcases evalSources_covers today ss hs ⟨initialExisting table ss, table⟩ s hsrc h hh with
      hin | hnone
    · exact Or.inl (hinv2 _ hin)
    · exact Or.inr hnone
  unfold runEval
  rw [evalSources_noop today ss hs ⟨initialExisting st1.table ss, st1.table⟩
    (by intro s hsrc h hh; exact hcover s hsrc h hh)]

/-- Witness for C5 at a concrete table: a pre-existing row for
    (source 1, horizon 3) is not duplicated by a run that covers it. -/
theorem outcome_eval_insert_once_witness :
    ((1, 3) ∈ initialExisting
        [⟨1, 3, 0, 100, ⟨some 100, "evaluated", some 0, some false, some false⟩⟩]
        [⟨1, 0, some 100, some 100, none, some 110, some 90, [(0, 100)]⟩]) ∧
    countKey (1, 3)
        (runEval 10
          [⟨1, 3, 0, 100, ⟨some 100, "evaluated", some 0, some false, some false⟩⟩]
          [⟨1, 0, some 100, some 100, none, some 110, some 90, [(0, 100)]⟩] [3]) =
      countKey (1, 3)
        [⟨1, 3, 0, 100, ⟨some 100, "evaluated", some 0, some false, some false⟩⟩] := by
  have hmem : (1, 3) ∈ initialExisting
      [⟨1, 3, 0, 100, ⟨some 100, "evaluated", some 0, some false, some false⟩⟩]
      [⟨1, 0, some 100, some 100, none, some 110, some 90, [(0, 100)]⟩] :=
    of_decide_eq_true (by with_unfolding_all rfl)
  exact ⟨hmem, (outcome_eval_insert_once 10
    [⟨1, 3, 0, 100, ⟨some 100, "evaluated", some 0, some false, some false⟩⟩]
    [⟨1, 0, some 100, some 100, none, some 110, some 90, [(0, 100)]⟩] [3]).2.1 (1, 3) hmem⟩

/-
Weight rebalancer (§4.4, claim C4).
-/

/-- The aggregated recent-outcome metrics for one (strategy, market) pair
    (strategy_engine.py lines 1744-1749), together with the catalog default
    weight. -/
structure RebalanceMetrics where
  sampleSize : ℕ
  wins : ℕ
  avgReturnPct : ℚ
  defaultWeight : ℚ
deriving DecidableEq, Repr

/-- Embedding of the per-pair body of `rebalance_strategy_weights`
    (strategy_engine.py lines 1760-1774): `none` means the loop `continue`s
    and the stored weight is left unchanged (sample below `min_samples`, or
    change below the 0.01 noise floor); `some w` is the weight written.
    The caller pre-clamps `alpha` to [0.05, 0.95]; the bounds below hold for
    any `alpha`. -/
def rebalancePairWeight (minSamples : ℕ) (alpha oldWeight : ℚ)
    (m : RebalanceMetrics) : Option ℚ :=
  if m.sampleSize < minSamples then none
  else
    let winRate : ℚ := if 0 < m.sampleSize then (m.wins : ℚ) / (m.sampleSize : ℚ) * 100 else 0
    let winTerm := clampQ ((winRate - 50) / 50) (-1) 1
    let retTerm := clampQ (m.avgReturnPct / 8) (-1) 1
    let target := clampQ (m.defaultWeight * (1 + 45/100 * winTerm + 35/100 * retTerm))
      (45/100) (19/10)
    let newWeight := pyRound4 (clampQ (oldWeight * (1 - alpha) + target * alpha) (45/100) (19/10))
    if |newWeight - oldWeight| < 1/100 then none else some newWeight

theorem pyRound4_clamp_bounds (v : ℚ) :
    45/100 ≤ pyRound4 (clampQ v (45/100) (19/10)) ∧
    pyRound4 (clampQ v (45/100) (19/10)) ≤ 19/10 := by
  have hv := clampQ_mem v (45/100) (19/10) (by norm_num)
  constructor
  · have h1 : (4500 : ℤ) ≤ pyRound (clampQ v (45/100) (19/10) * 10000) := by
      apply le_pyRound
      push_cast
      nlinarith [hv.1]
    have h2 : ((4500 : ℤ) : ℚ) ≤ (pyRound (clampQ v (45/100) (19/10) * 10000) : ℚ) := by
      exact_mod_cast h1
    unfold pyRound4
    push_cast at h2 ⊢
    linarith
  · have h1 : pyRound (clampQ v (45/100) (19/10) * 10000) ≤ (19000 : ℤ) := by
      apply pyRound_le
      push_cast
      nlinarith [hv.2]
    have h2 : ((pyRound (clampQ v (45/100) (19/10) * 10000) : ℤ) : ℚ) ≤ ((19000 : ℤ) : ℚ) := by
      exact_mod_cast h1
    unfold pyRound4
    push_cast at h2 ⊢
    linarith

/-- Claim C4: any weight the rebalancer writes lies in [0.45, 1.90], and a
    pair whose recent sample size is below `min_samples` is skipped, leaving
    the stored weight unchanged. -/
theorem rebalanced_weight_bounds (minSamples : ℕ) (alpha oldWeight : ℚ)
    (m : RebalanceMetrics) :
    (∀ w, rebalancePairWeight minSamples alpha oldWeight m = some w →
      45/100 ≤ w ∧ w ≤ 19/10) ∧
    (m.sampleSize < minSamples → rebalancePairWeight minSamples alpha oldWeight m = none) := by
  constructor
  · intro w hw
    simp only [rebalancePairWeight] at hw
    split at hw
    · cases hw
    · split at hw <;> split at hw
      all_goals cases hw
      all_goals exact pyRound4_clamp_bounds _
  · intro hlow
    simp [rebalancePairWeight, hlow]

set_option maxRecDepth 4000 in
/-- Witness for C4: with default weight 1, 18 wins out of 20 samples and
    average return 12%, the written weight is 1.2485 and lies in bounds;
    and a 3-sample pair under `min_samples = 8` is skipped. -/
theorem rebalanced_weight_bounds_witness :
    rebalancePairWeight 8 (35/100) 1 ⟨20, 18, 12, 1⟩ = some (2497/2000) ∧
    (45/100 ≤ (2497/2000 : ℚ) ∧ (2497/2000 : ℚ) ≤ 19/10) ∧
    ((3 : ℕ) < 8 ∧ rebalancePairWeight 8 (35/100) 1 ⟨3, 2, 12, 1⟩ = none) := by
  have heval : rebalancePairWeight 8 (35/100) 1 ⟨20, 18, 12, 1⟩ = some (2497/2000) := by
    with_unfolding_all rfl
  refine ⟨heval, (rebalanced_weight_bounds 8 (35/100) 1 ⟨20, 18, 12, 1⟩).1 _ heval, ?_, ?_⟩
  · norm_num
  · exact (rebalanced_weight_bounds 8 (35/100) 1 ⟨3, 2, 12, 1⟩).2 (by norm_num)

/-
Candidate aggregation (§4.1, claims C6 and C8).
-/

/-- Embedding of entry_candidates.py lines 1453-1458: after the
    watchlist-suggestion branch or the market-scan branch has resolved an
    action, a `buy` for an already-held symbol becomes `add` and an `add`
    for an unheld symbol becomes `buy` (with the matching labels), right
    before the candidate row is built. -/
def normalizeHoldingAction (isHolding : Bool) (action actionLabel : String) :
    String × String :=
  let p1 : String × String :=
    if isHolding = true ∧ action = "buy" then ("add", "准备加仓") else (action, actionLabel)
  if isHolding = false ∧ p1.1 = "add" then ("buy", "建仓") else p1

/-- Claim C6: holding normalization. A held `buy` is remapped to `add`, an
    unheld `add` is remapped to `buy`; consequently no persisted candidate is
    a held `buy` or an unheld `add`.  The remap runs after both the
    watchlist-suggestion and the market-scan action branches, so it applies
    to actions of either provenance. -/
theorem holding_action_normalization (a l : String) :
    (normalizeHoldingAction true "buy" l).1 = "add" ∧
    (normalizeHoldingAction false "add" l).1 = "buy" ∧
    (normalizeHoldingAction true a l).1 ≠ "buy" ∧
    (normalizeHoldingAction false a l).1 ≠ "add" := by
  refine ⟨?_, ?_, ?_, ?_⟩
  · simp [normalizeHoldingAction]
  · simp [normalizeHoldingAction]
  · by_cases h : a = "buy" <;> simp [normalizeHoldingAction, h]
  · by_cases h : a = "add" <;> simp [normalizeHoldingAction, h]

/-- Embedding of entry_candidates.py lines 1480-1483: a candidate is
    persisted `active` exactly when its action is buy/add, its plan quality
    is at least 90, and its score clears the source-dependent threshold
    (62 for `market_scan`/`mixed`, 55 otherwise); otherwise `inactive`. -/
def candidateStatus (action candidateSource : String) (planQuality : ℤ) (score : ℚ) :
    String :=
  let threshold : ℚ :=
    if candidateSource = "market_scan" ∨ candidateSource = "mixed" then 62 else 55
  if (action = "buy" ∨ action = "add") ∧ 90 ≤ planQuality ∧ threshold ≤ score then "active"
  else "inactive"

/-- Claim C8: the persisted status is `active` iff action ∈ {buy, add},
    plan quality ≥ 90 and score meets the source threshold; every other
    candidate is persisted `inactive`. -/
theorem candidate_active_iff (action candidateSource : String) (planQuality : ℤ)
    (score : ℚ) :
    (candidateStatus action candidateSource planQuality score = "active" ↔
      ((action = "buy" ∨ action = "add") ∧ 90 ≤ planQuality ∧
        (if candidateSource = "market_scan" ∨ candidateSource = "mixed"
          then (62 : ℚ) ≤ score else (55 : ℚ) ≤ score))) ∧
    (candidateStatus action candidateSource planQuality score = "active" ∨
      candidateStatus action candidateSource planQuality score = "inactive") := by
  constructor
  · simp only [candidateStatus]
    by_cases hP : candidateSource = "market_scan" ∨ candidateSource = "mixed"
    · simp only [hP, if_true]
      split <;> rename_i hc
      · simp [hc]
      · simp only [hc, iff_false]
        intro habs
        exact absurd habs (by simp)
    · simp only [hP, if_false]
      split <;> rename_i hc
      · simp [hc]
      · simp only [hc, iff_false]
        intro habs
        exact absurd habs (by simp)
  · simp only [candidateStatus]
    split <;> split
    all_goals first
      | exact Or.inl rfl
      | exact Or.inr rfl

/-
Price alert engine (§4.5, claim C7).

Timestamps are UTC seconds (`ℤ`); `_day_key`'s calendar-date string becomes a
UTC day number and `_minute_bucket`'s minute string a UTC minute number, both
via floor division, preserving the equalities the engine relies on.
-/

/-- The Alert Rule fields `_can_trigger` and `scan_once` read and update. -/
structure AlertRule where
  enabled : Bool
  expireAt : Option ℤ
  marketHoursMode : String
  triggerDate : ℤ
  triggerCountToday : ℕ
  maxTriggersPerDay : ℤ
  repeatMode : String
  lastTriggerAt : Option ℤ
  cooldownMinutes : ℤ
deriving DecidableEq, Repr

def dayKey (now : ℤ) : ℤ := now / 86400

def minuteBucket (now : ℤ) : ℤ := now / 60

/-- The daily-rollover bookkeeping of `_can_trigger` (price_alert_engine.py
    lines 240-243): when the stored trigger date is stale, reset it and the
    daily counter. -/
def rollover (rule : AlertRule) (now : ℤ) : AlertRule :=
  if rule.triggerDate ≠ dayKey now then
    { rule with triggerDate := dayKey now, triggerCountToday := 0 }
  else rule

theorem rollover_lastTriggerAt (rule : AlertRule) (now : ℤ) :
    (rollover rule now).lastTriggerAt = rule.lastTriggerAt := by
  unfold rollover
  split <;> rfl

theorem rollover_cooldownMinutes (rule : AlertRule) (now : ℤ) :
    (rollover rule now).cooldownMinutes = rule.cooldownMinutes := by
  unfold rollover
  split <;> rfl

/-- Embedding of `PriceAlertEngine._can_trigger` (price_alert_engine.py lines
    223-261): the gate chain disabled → expired → non-trading → daily limit →
    once-already-triggered → cooldown; returns the updated rule (rollover),
    the verdict and the gating reason. -/
def canTrigger (rule : AlertRule) (now : ℤ) (isTradingTime bypassMarketHours : Bool) :
    AlertRule × Bool × String :=
  if rule.enabled = false then (rule, false, "disabled")
  else if (match rule.expireAt with
      | some e => decide (e < now)
      | none => false) = true then (rule, false, "expired")
  else if rule.marketHoursMode = "trading_only" ∧ bypassMarketHours = false ∧
      isTradingTime = false then (rule, false, "non_trading")
  else if 0 < (rollover rule now).maxTriggersPerDay ∧
      (rollover rule now).maxTriggersPerDay ≤ ((rollover rule now).triggerCountToday : ℤ) then
    (rollover rule now, false, "daily_limit")
  else if (rollover rule now).repeatMode = "once" ∧
      (rollover rule now).lastTriggerAt.isSome = true then
    (rollover rule now, false, "once_triggered")
  else
    match (rollover rule now).lastTriggerAt with
    | some last =>
      if now - last < max 0 (rollover rule now).cooldownMinutes * 60 then
        (rollover rule now, false, "cooldown")
      else (rollover rule now, true, "ok")
    | none => (rollover rule now, true, "ok")

/-- Embedding of the per-rule body of `scan_once` (price_alert_engine.py
    lines 338-413): missing stock or quote, a failed gate, an unmatched
    condition group, a dry run, or a duplicate (rule, minute-bucket) Hit key
    all abort the trigger path; otherwise the Hit keyed by the minute bucket
    is inserted.  The returned value is the inserted Hit key, if any. -/
def scanRuleStep (existingBuckets : List (ℕ × ℤ)) (ruleId : ℕ) (rule : AlertRule)
    (hasStock hasQuote matched dryRun : Bool) (now : ℤ)
    (isTradingTime bypassMarketHours : Bool) : Option (ℕ × ℤ) :=
  if hasStock = false then none
  else if hasQuote = false then none
  else if (canTrigger rule now isTradingTime bypassMarketHours).2.1 = false then none
  else if matched = false then none
  else if dryRun = true then none
  else if (ruleId, minuteBucket now) ∈ existingBuckets then none
  else some (ruleId, minuteBucket now)

theorem canTrigger_gates (rule : AlertRule) (now : ℤ) (isT byp : Bool)
    (h : rule.enabled = false ∨
      (∃ e, rule.expireAt = some e ∧ e < now) ∨
      (∃ last, rule.lastTriggerAt = some last ∧
        now - last < max 0 rule.cooldownMinutes * 60)) :
    (canTrigger rule now isT byp).2.1 = false := by
  unfold canTrigger
  rcases h with h1 | ⟨e, he, hlt⟩ | ⟨last, hl, hcd⟩
  · simp [h1]
  · by_cases hen : rule.enabled = false
    · simp [hen]
    · have hexp : (match rule.expireAt with
          | some e => decide (e < now)
          | none => false) = true := by
        rw [he]
        simpa using hlt
      simp [hen, hexp]
  · split
    · rfl
    · split
      · rfl
      · split
        · rfl
        · split
          · rfl
          · split
            · rfl
            · rw [rollover_lastTriggerAt, hl]
              simp only [rollover_cooldownMinutes]
              rw [if_pos hcd]

/-- Claim C7: on any scan tick, a disabled rule, an expired rule, or a rule
    whose cooldown window since its last trigger has not elapsed never
    produces an Alert Hit, regardless of whether its condition group matched
    the quote. -/
theorem gated_rule_no_hit (existingBuckets : List (ℕ × ℤ)) (ruleId : ℕ)
    (rule : AlertRule) (hasStock hasQuote matched dryRun : Bool) (now : ℤ)
    (isT byp : Bool)
    (h : rule.enabled = false ∨
      (∃ e, rule.expireAt = some e ∧ e < now) ∨
      (∃ last, rule.lastTriggerAt = some last ∧
        now - last < max 0 rule.cooldownMinutes * 60)) :
    scanRuleStep existingBuckets ruleId rule hasStock hasQuote matched dryRun now isT byp
      = none := by
  have hc := canTrigger_gates rule now isT byp h
  unfold scanRuleStep
  simp [hc]

/-- Witness for C7 at the spec's cooldown example: cooldown 30 minutes, last
    trigger 10 minutes ago (now = 100000s, last = 99400s), condition matched,
    yet no Hit is produced. -/
theorem gated_rule_no_hit_witness :
    ((⟨true, none, "always", 1, 0, 0, "repeat", some 99400, 30⟩ : AlertRule).lastTriggerAt
        = some 99400 ∧
      (100000 : ℤ) - 99400 < max 0 (30 : ℤ) * 60) ∧
    scanRuleStep [] 7 ⟨true, none, "always", 1, 0, 0, "repeat", some 99400, 30⟩
      true true true false 100000 true false = none := by
  refine ⟨⟨rfl, by norm_num⟩, ?_⟩
  exact gated_rule_no_hit [] 7 ⟨true, none, "always", 1, 0, 0, "repeat", some 99400, 30⟩
    true true true false 100000 true false
    (Or.inr (Or.inr ⟨99400, rfl, by norm_num⟩))

/-
Strategy scorer factor breakdown (§4.2, claim C1).

`_compute_factor_breakdown` (strategy_engine.py lines 781-916).  The meta-dict
extraction helpers (`_extract_candidate_quote_change_pct`,
`_extract_candidate_volume_ratio`, `_extract_candidate_turnover`) are
modelled as resolved optional fields of the candidate row.  The `round(x, 4)`
applied to the returned payload numbers is display-only and elided; every
comparison below is exact at 4 decimals, so no conclusion depends on it.
-/

/-- Substring test on character lists: Python's `needle in hay`. -/
def containsSeq (needle : List Char) : List Char → Bool
  | [] => needle.isEmpty
  | c :: rest => needle.isPrefixOf (c :: rest) || containsSeq needle rest

/-- Python's `needle in hay` on strings. -/
def strContains (hay needle : String) : Bool := containsSeq needle.data hay.data

/-- The candidate-row fields `_compute_factor_breakdown` reads.  The three
    quote/kline metrics are the values the meta-extraction helpers resolve
    (or `none` when the nested dicts lack them). -/
structure CandidateRow where
  score : Option ℚ
  action : String
  status : String
  isHoldingSnapshot : Bool
  signal : String
  reason : String
  planQuality : Option ℤ
  candidateSource : String
  entryLow : Option ℚ
  entryHigh : Option ℚ
  sourceAgent : String
  quoteChangePct : Option ℚ
  volumeRatio : Option ℚ
  turnover : Option ℚ
deriving DecidableEq, Repr

structure RegimeInfo where
  regime : String
  confidence : ℚ
deriving DecidableEq, Repr

structure CrossFeature where
  relativeStrengthPct : Option ℚ
  crowdingRisk : Option ℚ
deriving DecidableEq, Repr

structure NewsMetric where
  eventScore : Option ℚ
  eventBias : Option ℚ
  newsCount : ℕ
deriving DecidableEq, Repr

/-- The score terms `_compute_factor_breakdown` returns (unrounded). -/
structure FactorBreakdown where
  baseScore : ℚ
  alphaScore : ℚ
  catalystScore : ℚ
  qualityScore : ℚ
  riskPenalty : ℚ
  crowdPenalty : ℚ
  sourceBonus : ℚ
  regime : String
  regimeMultiplier : ℚ
  rawScore : ℚ
  weightedScore : ℚ
  hasEntryPlan : Bool
deriving DecidableEq, Repr

/-- `(row.action or "watch")`: an empty action falls back to `watch`. -/
def effectiveAction (row : CandidateRow) : String :=
  if row.action = "" then "watch" else row.action

/-- `float(weight or 1.0)`: a zero (or missing) weight falls back to 1. -/
def weightOrOne (w : ℚ) : ℚ := if w = 0 then 1 else w

/-- Line 882: a buy/add without an entry window loses 8 points. -/
def execNoEntry (row : CandidateRow) : Prop :=
  (effectiveAction row = "buy" ∨ effectiveAction row = "add") ∧
    (row.entryLow.isSome || row.entryHigh.isSome) = false

/-- Line 884: a buy/add with plan quality below 90 loses 6 points. -/
def execLowQuality (row : CandidateRow) : Prop :=
  (effectiveAction row = "buy" ∨ effectiveAction row = "add") ∧ row.planQuality.getD 0 < 90

instance (row : CandidateRow) : Decidable (execNoEntry row) := by
  unfold execNoEntry
  infer_instance

instance (row : CandidateRow) : Decidable (execLowQuality row) := by
  unfold execLowQuality
  infer_instance

/-- Embedding of `_compute_factor_breakdown` (strategy_engine.py lines
    781-916). -/
def computeFactorBreakdown (row : CandidateRow) (strategyCode : String) (weight : ℚ)
    (riskLevel : String) (regimeInfo : Option RegimeInfo)
    (crossFeature : Option CrossFeature) (newsMetric : Option NewsMetric) :
    FactorBreakdown :=
  let baseScore := row.score.getD 0
  let action := effectiveAction row
  let isHolding := row.isHoldingSnapshot
  let signalText := (row.signal ++ " " ++ row.reason).toLower
  let planQuality := row.planQuality.getD 0
  let isMarketScan := row.candidateSource == "market_scan" || row.candidateSource == "mixed"
  let relativeStrengthPct := crossFeature.bind (fun c => c.relativeStrengthPct)
  let crowdingRisk := (crossFeature.bind (fun c => c.crowdingRisk)).getD 0
  let eventScore := (newsMetric.bind (fun n => n.eventScore)).getD 0
  let eventBias := (newsMetric.bind (fun n => n.eventBias)).getD 0
  let eventCount := (newsMetric.map (fun n => n.newsCount)).getD 0
  let alphaScore := clampQ ((baseScore - 50) * (45/100)) (-12) 18
  let alphaScore :=
    match relativeStrengthPct with
    | some rs => alphaScore + clampQ ((rs - 50) / 15) (-2) 4
    | none => alphaScore
  let catalystScore : ℚ := 0
  let catalystScore := if isMarketScan then catalystScore + 5/2 else catalystScore
  let catalystScore :=
    match row.quoteChangePct with
    | some c =>
      if 1 ≤ c ∧ c ≤ 7 then catalystScore + 4
      else if 9 < c then catalystScore + 3/2
      else if c < -4 then catalystScore - 5/2
      else catalystScore
    | none => catalystScore
  let catalystScore :=
    if strContains signalText "突破" || strContains signalText "breakout" then
      catalystScore + 5/2
    else catalystScore
  let catalystScore :=
    if strContains signalText "回踩" then catalystScore + 3/2 else catalystScore
  let catalystScore :=
    if strContains signalText "超跌" then catalystScore + 1 else catalystScore
  let catalystScore := catalystScore + clampQ (eventScore * (55/100)) (-3) (13/2)
  let catalystScore := if 4/5 < eventBias then catalystScore + 6/5 else catalystScore
  let catalystScore :=
    match relativeStrengthPct with
    | some rs => catalystScore + clampQ ((rs - 60) / 12) (-5/2) (9/2)
    | none => catalystScore
  let qualityScore := clampQ (((planQuality : ℚ) - 50) / 5) (-8) 10
  let qualityScore := if 3 ≤ eventCount then qualityScore + 4/5 else qualityScore
  let riskPenalty : ℚ := 0
  let riskPenalty := if riskLevel = "high" then riskPenalty + 3/2 else riskPenalty
  let riskPenalty :=
    match row.quoteChangePct with
    | some c => if 8 ≤ |c| then riskPenalty + 2 else riskPenalty
    | none => riskPenalty
  let riskPenalty := if row.status ≠ "active" then riskPenalty + 5/2 else riskPenalty
  let riskPenalty := if planQuality < 70 then riskPenalty + 3/2 else riskPenalty
  let riskPenalty := if eventBias < -(9/10) then riskPenalty + 11/5 else riskPenalty
  let crowdPenalty : ℚ := 0
  let crowdPenalty :=
    match row.quoteChangePct with
    | some c => if 9 ≤ c then crowdPenalty + 5/2 else crowdPenalty
    | none => crowdPenalty
  let crowdPenalty :=
    match row.volumeRatio with
    | some v => if 3 ≤ v then crowdPenalty + 3/2 else crowdPenalty
    | none => crowdPenalty
  let crowdPenalty :=
    match row.turnover with
    | some t => if 8000000000 ≤ t then crowdPenalty + 1 else crowdPenalty
    | none => crowdPenalty
  let crowdPenalty := crowdPenalty + clampQ crowdingRisk 0 6
  let sourceBonus : ℚ := 0
  let sourceBonus :=
    if row.sourceAgent = "premarket_outlook" ∨ row.sourceAgent = "intraday_monitor" then
      sourceBonus + 1
    else sourceBonus
  let sourceBonus :=
    if strategyCode = "trend_follow" ∨ strategyCode = "volume_breakout" ∨
        strategyCode = "macd_golden" then
      sourceBonus + 4/5
    else sourceBonus
  let sourceBonus :=
    match relativeStrengthPct with
    | some rs => if 80 ≤ rs then sourceBonus + 4/5 else sourceBonus
    | none => sourceBonus
  let regime :=
    match regimeInfo with
    | some ri => if ri.regime = "" then "neutral" else ri.regime
    | none => "neutral"
  let regimeConfidence :=
    match regimeInfo with
    | some ri => ri.confidence
    | none => 0
  let regimeMultiplier : ℚ :=
    if regime = "bullish" then
      (if action = "buy" ∨ action = "add" then 106/100 else 101/100)
    else if regime = "bearish" then
      (if action = "buy" ∨ action = "add" then 90/100 else 97/100)
    else 1
  let regimeMultiplier :=
    regimeMultiplier + clampQ ((regimeConfidence - 1/2) * (6/100)) (-(3/100)) (3/100)
  let regimeMultiplier := clampQ regimeMultiplier (85/100) (112/100)
  let rawScore := baseScore + alphaScore + catalystScore + qualityScore + sourceBonus
  let rawScore := rawScore - riskPenalty
  let rawScore := rawScore - crowdPenalty
  let hasEntry := row.entryLow.isSome || row.entryHigh.isSome
  let rawScore := if execNoEntry row then rawScore - 8 else rawScore
  let rawScore := if execLowQuality row then rawScore - 6 else rawScore
  let finalScore := clampQ (rawScore * weightOrOne weight * regimeMultiplier) 0 100
  let finalScore := if row.status ≠ "active" then min finalScore 69 else finalScore
  let finalScore :=
    if action = "hold" ∨ action = "watch" then
      min finalScore (if isHolding then 78 else 65)
    else finalScore
  let finalScore := if execNoEntry row then min finalScore 66 else finalScore
  ⟨baseScore, alphaScore, catalystScore, qualityScore, riskPenalty, crowdPenalty,
    sourceBonus, regime, regimeMultiplier, rawScore, finalScore, hasEntry⟩

/-- The rank-score formula exactly as the C1 specification sentence states
    it: `base_score·weight·regime_multiplier + alpha_score + catalyst_score +
    quality_score + source_bonus − risk_penalty − crowd_penalty`, clamped to
    [0, 100] (the product is applied to the base score only). -/
def specRankScore (bd : FactorBreakdown) (weight : ℚ) : ℚ :=
  clampQ (bd.baseScore * weight * bd.regimeMultiplier + bd.alphaScore + bd.catalystScore
    + bd.qualityScore + bd.sourceBonus - bd.riskPenalty - bd.crowdPenalty) 0 100

/-- Counterexample to C1 as stated: for a plain active buy candidate with
    base score 60, plan quality 95, weight 1.2 and neutral regime
    (multiplier exactly 1), the code's rank score is 88.2 — the whole factor
    sum is multiplied by the weight — while the claim's formula, which
    multiplies only the base score, gives 85.5. -/
theorem rank_score_formula_counterexample :
    (computeFactorBreakdown
        ⟨some 60, "buy", "active", false, "", "", some 95, "watchlist",
          some 10, some 12, "", none, none, none⟩
        "watchlist_agent" (6/5) "medium" (some ⟨"neutral", 1/2⟩) none none).weightedScore
      = 441/5 ∧
    specRankScore
        (computeFactorBreakdown
          ⟨some 60, "buy", "active", false, "", "", some 95, "watchlist",
            some 10, some 12, "", none, none, none⟩
          "watchlist_agent" (6/5) "medium" (some ⟨"neutral", 1/2⟩) none none) (6/5)
      = 171/2 ∧
    (441/5 : ℚ) ≠ 171/2 := by
  refine ⟨?_, ?_, by norm_num⟩
  · with_unfolding_all rfl
  · with_unfolding_all rfl

/-- Claim C1 (amended): the raw score is the plain sum
    `base + alpha + catalyst + quality + source_bonus − risk − crowd` minus
    the executability deductions (−8 for a buy/add without an entry window,
    −6 for a buy/add with plan quality < 90), and the rank score is that
    whole sum multiplied by `weight·regime_multiplier`, clamped to [0, 100]
    and then capped by the status/action ceilings — the weight and regime
    multiplier scale the entire factor sum, not the base score alone. -/
theorem rank_score_formula (row : CandidateRow) (strategyCode : String) (weight : ℚ)
    (riskLevel : String) (regimeInfo : Option RegimeInfo)
    (crossFeature : Option CrossFeature) (newsMetric : Option NewsMetric) :
    (computeFactorBreakdown row strategyCode weight riskLevel regimeInfo crossFeature
        newsMetric).rawScore =
      (computeFactorBreakdown row strategyCode weight riskLevel regimeInfo crossFeature
          newsMetric).baseScore
        + (computeFactorBreakdown row strategyCode weight riskLevel regimeInfo crossFeature
            newsMetric).alphaScore
        + (computeFactorBreakdown row strategyCode weight riskLevel regimeInfo crossFeature
            newsMetric).catalystScore
        + (computeFactorBreakdown row strategyCode weight riskLevel regimeInfo crossFeature
            newsMetric).qualityScore
        + (computeFactorBreakdown row strategyCode weight riskLevel regimeInfo crossFeature
            newsMetric).sourceBonus
        - (computeFactorBreakdown row strategyCode weight riskLevel regimeInfo crossFeature
            newsMetric).riskPenalty
        - (computeFactorBreakdown row strategyCode weight riskLevel regimeInfo crossFeature
            newsMetric).crowdPenalty
        - ((if execNoEntry row then (8 : ℚ) else 0) + (if execLowQuality row then (6 : ℚ) else 0)) ∧
    (computeFactorBreakdown row strategyCode weight riskLevel regimeInfo crossFeature
        newsMetric).weightedScore =
      (fun s => if execNoEntry row then min s 66 else s)
        ((fun s =>
            if effectiveAction row = "hold" ∨ effectiveAction row = "watch" then
              min s (if row.isHoldingSnapshot then 78 else 65)
            else s)
          ((fun s => if row.status ≠ "active" then min s 69 else s)
            (clampQ
              ((computeFactorBreakdown row strategyCode weight riskLevel regimeInfo
                  crossFeature newsMetric).rawScore * weightOrOne weight *
                (computeFactorBreakdown row strategyCode weight riskLevel regimeInfo
                  crossFeature newsMetric).regimeMultiplier)
              0 100))) := by
  constructor
  · by_cases h1 : execNoEntry row <;> by_cases h2 : execLowQuality row <;>
      simp only [computeFactorBreakdown, h1, h2, if_true, if_false] <;> ring
  · rfl

/-
Portfolio constraints (§4.2, claims C2 and C10).

`_apply_portfolio_constraints` (strategy_engine.py lines 713-778) mutates the
scored signal rows in place, per market: (1) demote every eligible unheld
buy/add signal beyond the top-N by rank score, (2) within the top-N
survivors demote the lowest-ranked high-risk signals beyond the high-risk
allowance, (3) within what is left demote the lowest-ranked signals of any
strategy beyond the 42% concentration cap.  The three stages touch disjoint
rows (stage 1 demotes only rows beyond the cap, stages 2 and 3 operate on
successively smaller active subsets), so the mutation is modelled by
computing each stage's demotion set over the indexed input rows and mapping
the demotion over the list.  Rows are indexed by position (`List.enum`)
because the ORM rows are distinct objects mutated independently.
-/

/-- The signal-row fields the constraint pass reads and writes. -/
structure SignalRow where
  market : String
  status : String
  action : String
  actionLabel : String
  isHoldingSnapshot : Bool
  rankScore : ℚ
  confidence : Option ℚ
  riskLevel : String
  strategyCode : String
  constrained : Bool
  constraintReasons : List String
  reason : String
deriving DecidableEq, Repr

/-- Embedding of `_demote_signal` (strategy_engine.py lines 684-710): force
    inactive/watch, cap rank score and confidence at 69 (held) or 65
    (unheld), record the constraint reason and the `constrained` flag. -/
def demoteSignal (row : SignalRow) (reason : String) : SignalRow :=
  let cap : ℚ := if row.isHoldingSnapshot then 69 else 65
  { row with
    status := "inactive"
    action := "watch"
    actionLabel := "观望"
    rankScore := min row.rankScore cap
    confidence := row.confidence.map (fun c => min c (cap / 100))
    constraintReasons := ((row.constraintReasons.filter (fun s => s ≠ "")) ++ [reason]).take 6
    constrained := true
    reason :=
      if row.reason = "" then reason
      else if strContains row.reason reason then row.reason
      else row.reason ++ "；" ++ reason }

/-- `MAX_UNHELD_ACTIVE_BY_MARKET` (lines 203-207) with the `.get(market, 20)`
    default. -/
def maxUnheldActiveByMarket (m : String) : ℕ :=
  if m = "CN" then 30 else if m = "HK" then 20 else if m = "US" then 20 else 20

/-- `MAX_HIGH_RISK_RATIO_BY_MARKET` (lines 209-213) with the
    `.get(market, 0.32)` default. -/
def maxHighRiskRatioByMarket (m : String) : ℚ :=
  if m = "CN" then 35/100 else if m = "HK" then 32/100 else if m = "US" then 30/100
  else 32/100

/-- `MAX_SINGLE_STRATEGY_SHARE` (line 215). -/
def maxSingleStrategyShare : ℚ := 42/100

/-- `(r.stock_market or "CN")`. -/
def marketOf (r : SignalRow) : String := if r.market = "" then "CN" else r.market

/-- The eligibility filter of lines 722-728: active, unheld, buy/add. -/
def isEligibleUnheld (r : SignalRow) : Bool :=
  r.status == "active" && !r.isHoldingSnapshot && (r.action == "buy" || r.action == "add")

/-- `x.strategy_code or "unknown"` (line 766). -/
def strategyKey (r : SignalRow) : String :=
  if r.strategyCode = "" then "unknown" else r.strategyCode

/-- Python's stable descending sort by rank score
    (`sort(key=rank_score, reverse=True)`): ordered insertion before the
    first element of smaller-or-equal score keeps the original order among
    ties, which is exactly CPython's stable behaviour here. -/
def sortByRankDesc (l : List (ℕ × SignalRow)) : List (ℕ × SignalRow) :=
  List.insertionSort (fun a b => b.2.rankScore ≤ a.2.rankScore) l

/-- The per-market eligible pool, in input order, with row indices. -/
def eligIdx (rows : List SignalRow) (m : String) : List (ℕ × SignalRow) :=
  (rows.enum).filter (fun p => marketOf p.2 == m && isEligibleUnheld p.2)

/-- Stage 1 (lines 731-737): everything beyond the top-N is demoted. -/
def stage1Demoted (rows : List SignalRow) (m : String) : List (ℕ × SignalRow) :=
  (sortByRankDesc (eligIdx rows m)).drop (maxUnheldActiveByMarket m)

/-- The top-N survivors of stage 1 (lines 739-743; the `status == "active"`
    re-filter is the identity there because stage 1 demotes only rows beyond
    the cap and the ORM rows are distinct objects). -/
def stage1Survivors (rows : List SignalRow) (m : String) : List (ℕ × SignalRow) :=
  (sortByRankDesc (eligIdx rows m)).take (maxUnheldActiveByMarket m)

/-- `allow_high = max(1, int(round(len(remaining) * max_ratio)))` (line 749). -/
def allowHighCount (n : ℕ) (m : String) : ℕ :=
  max 1 (pyRound ((n : ℚ) * maxHighRiskRatioByMarket m)).toNat

/-- Stage 2 (lines 747-756): the lowest-ranked high-risk survivors beyond
    the allowance are demoted. -/
def stage2Demoted (rows : List SignalRow) (m : String) : List (ℕ × SignalRow) :=
  (sortByRankDesc ((stage1Survivors rows m).filter (fun p => p.2.riskLevel == "high"))).drop
    (allowHighCount (stage1Survivors rows m).length m)

/-- Survivors still active after a stage-2 demotion set, the latter given by
    row indices (row indices are unique, so index membership coincides with
    row identity). -/
def stage3FinalOf (surv : List (ℕ × SignalRow)) (s2 : List ℕ) : List (ℕ × SignalRow) :=
  surv.filter (fun p => decide (p.1 ∉ s2))

/-- `final_rows` (lines 758-760): survivors still active after stage 2. -/
def stage3Final (rows : List SignalRow) (m : String) : List (ℕ × SignalRow) :=
  stage3FinalOf (stage1Survivors rows m) ((stage2Demoted rows m).map Prod.fst)

/-- `cap_per_strategy = max(1, int(round(len(final_rows) * 0.42)))`
    (line 763). -/
def stage3CapPerStrategy (rows : List SignalRow) (m : String) : ℕ :=
  max 1 (pyRound (((stage3Final rows m).length : ℚ) * maxSingleStrategyShare)).toNat

/-- Stage 3 demotion over a given survivor set and concentration cap: a row
    is demoted when it ranks beyond the cap within its own strategy group
    (grouping does not affect the resulting set, each row's fate depends
    only on its own group; rows are identified by their unique index). -/
def stage3DemotedOf (final : List (ℕ × SignalRow)) (cap : ℕ) : List (ℕ × SignalRow) :=
  final.filter (fun p =>
    decide (p.1 ∈ ((sortByRankDesc (final.filter
      (fun q => strategyKey q.2 == strategyKey p.2))).drop cap).map Prod.fst))

/-- Stage 3 (lines 763-776): the lowest-ranked rows beyond the per-strategy
    concentration cap are demoted. -/
def stage3Demoted (rows : List SignalRow) (m : String) : List (ℕ × SignalRow) :=
  stage3DemotedOf (stage3Final rows m) (stage3CapPerStrategy rows m)

def demoteReason1 (m : String) (n : ℕ) : String :=
  s!"组合约束: {m} 未持仓机会超限({n})"

def demoteReason2 (m : String) (pct : ℤ) : String :=
  s!"组合约束: {m} 高风险占比超限({pct}%)"

def demoteReason3 (m : String) (code : String) : String :=
  s!"组合约束: {m} 策略{code}集中度过高"

/-- Which of three given stage demotion sets (as row-index lists) contains
    the indexed row, and the matching constraint reason. -/
def demotedWithReasonOf (s1 s2 s3 : List ℕ) (m : String)
    (p : ℕ × SignalRow) : Option String :=
  if p.1 ∈ s1 then some (demoteReason1 m (maxUnheldActiveByMarket m))
  else if p.1 ∈ s2 then some (demoteReason2 m (ratFloor (maxHighRiskRatioByMarket m * 100)))
  else if p.1 ∈ s3 then some (demoteReason3 m (strategyKey p.2))
  else none

/-- Which stage, if any, demotes the indexed row, and with which reason.
    A row can only be demoted by its own market's pass (each stage set is
    drawn from that market's pool), and the three stages are disjoint. -/
def demotedWithReason (rows : List SignalRow) (m : String) (p : ℕ × SignalRow) :
    Option String :=
  demotedWithReasonOf ((stage1Demoted rows m).map Prod.fst)
    ((stage2Demoted rows m).map Prod.fst) ((stage3Demoted rows m).map Prod.fst) m p

/-- Embedding of `_apply_portfolio_constraints` (lines 713-778) as a row
    transformation: each row is demoted with its stage's reason, or kept. -/
def applyPortfolioConstraints (rows : List SignalRow) : List SignalRow :=
  (rows.enum).map (fun p =>
    match demotedWithReason rows (marketOf p.2) p with
    | some reason => demoteSignal p.2 reason
    | none => p.2)

theorem sortByRankDesc_perm (l : List (ℕ × SignalRow)) :
    List.Perm (sortByRankDesc l) l :=
  List.perm_insertionSort _ l

theorem enum_nodup (rows : List SignalRow) : (rows.enum).Nodup := by
  have h : ((rows.enum).map Prod.fst).Nodup := by
    rw [List.enum_map_fst]
    exact List.nodup_range _
  exact h.of_map

theorem eligIdx_nodup (rows : List SignalRow) (m : String) : (eligIdx rows m).Nodup :=
  (enum_nodup rows).filter _

theorem applyPC_getD (rows : List SignalRow) (p : ℕ × SignalRow) (hp : p ∈ rows.enum) :
    (applyPortfolioConstraints rows).getD p.1 p.2 =
      match demotedWithReason rows (marketOf p.2) p with
      | some reason => demoteSignal p.2 reason
      | none => p.2 := by
  obtain ⟨i, a⟩ := p
  have h1 : rows[i]? = some a := List.mem_enum_iff_getElem?.mp hp
  have h2 : (rows.enum)[i]? = some (i, a) := by
    rw [List.getElem?_enum, h1]
    rfl
  unfold applyPortfolioConstraints
  rw [List.getD_eq_getElem?_getD, List.getElem?_map, h2]
  rfl

theorem applyPC_demoted (rows : List SignalRow) (p : ℕ × SignalRow) (reason : String)
    (hp : p ∈ rows.enum) (hd : demotedWithReason rows (marketOf p.2) p = some reason) :
    ((applyPortfolioConstraints rows).getD p.1 p.2).constrained = true ∧
    ((applyPortfolioConstraints rows).getD p.1 p.2).status = "inactive" ∧
    ((applyPortfolioConstraints rows).getD p.1 p.2).action = "watch" := by
  rw [applyPC_getD rows p hp, hd]
  exact ⟨rfl, rfl, rfl⟩

theorem applyPC_kept (rows : List SignalRow) (p : ℕ × SignalRow)
    (hp : p ∈ rows.enum) (hd : demotedWithReason rows (marketOf p.2) p = none) :
    (applyPortfolioConstraints rows).getD p.1 p.2 = p.2 := by
  rw [applyPC_getD rows p hp, hd]

theorem mem_eligIdx (rows : List SignalRow) (m : String) (p : ℕ × SignalRow)
    (hp : p ∈ eligIdx rows m) :
    p ∈ rows.enum ∧ marketOf p.2 = m ∧ p.2.status = "active" := by
  have h := List.mem_filter.mp hp
  have h2 := h.2
  rw [Bool.and_eq_true] at h2
  refine ⟨h.1, beq_iff_eq.mp h2.1, ?_⟩
  have he := h2.2
  unfold isEligibleUnheld at he
  rw [Bool.and_eq_true, Bool.and_eq_true] at he
  exact beq_iff_eq.mp he.1.1

theorem stage1Demoted_subset (rows : List SignalRow) (m : String) :
    stage1Demoted rows m ⊆ eligIdx rows m := by
  intro p hp
  have h1 : p ∈ sortByRankDesc (eligIdx rows m) := List.drop_subset _ _ hp
  exact (sortByRankDesc_perm _).mem_iff.mp h1

/-- Claim C2 (amended): for a market whose eligible unheld buy/add pool
    exceeds the cap N, the top-N stage demotes exactly (pool − N) signals;
    at most N pool members remain active after the full pass — the high-risk
    and strategy-concentration caps can demote further survivors, so the
    final active count can fall below N — and every pool member is either
    left untouched (hence still active) or is marked `constrained = true`,
    `status = "inactive"`, `action = "watch"`; in particular every member
    beyond the top-N cutoff is so marked. -/
theorem portfolio_cap (rows : List SignalRow) (m : String)
    (hbig : maxUnheldActiveByMarket m < (eligIdx rows m).length) :
    ((eligIdx rows m).filter (fun p =>
        ((applyPortfolioConstraints rows).getD p.1 p.2).status == "active")).length
      ≤ maxUnheldActiveByMarket m ∧
    (stage1Demoted rows m).length = (eligIdx rows m).length - maxUnheldActiveByMarket m ∧
    (∀ p ∈ eligIdx rows m,
      ((applyPortfolioConstraints rows).getD p.1 p.2 = p.2 ∧ p.2.status = "active") ∨
      (((applyPortfolioConstraints rows).getD p.1 p.2).constrained = true ∧
        ((applyPortfolioConstraints rows).getD p.1 p.2).status = "inactive" ∧
        ((applyPortfolioConstraints rows).getD p.1 p.2).action = "watch")) ∧
    (∀ p ∈ stage1Demoted rows m,
      ((applyPortfolioConstraints rows).getD p.1 p.2).constrained = true ∧
      ((applyPortfolioConstraints rows).getD p.1 p.2).status = "inactive" ∧
      ((applyPortfolioConstraints rows).getD p.1 p.2).action = "watch") := by
  have hout : ∀ p ∈ eligIdx rows m,
      ((applyPortfolioConstraints rows).getD p.1 p.2 = p.2 ∧ p.2.status = "active") ∨
      (((applyPortfolioConstraints rows).getD p.1 p.2).constrained = true ∧
        ((applyPortfolioConstraints rows).getD p.1 p.2).status = "inactive" ∧
        ((applyPortfolioConstraints rows).getD p.1 p.2).action = "watch") := by
    intro p hp
    obtain ⟨henum, hm, hstatus⟩ := mem_eligIdx rows m p hp
    cases hd : demotedWithReason rows (marketOf p.2) p with
    | none => exact Or.inl ⟨applyPC_kept rows p henum hd, hstatus⟩
    | some r => exact Or.inr (applyPC_demoted rows p r henum hd)
  have hdem : ∀ p ∈ stage1Demoted rows m,
      ((applyPortfolioConstraints rows).getD p.1 p.2).constrained = true ∧
      ((applyPortfolioConstraints rows).getD p.1 p.2).status = "inactive" ∧
      ((applyPortfolioConstraints rows).getD p.1 p.2).action = "watch" := by
    intro p hp1
    have helig := stage1Demoted_subset rows m hp1
    obtain ⟨henum, hm, _⟩ := mem_eligIdx rows m p helig
    have hd : demotedWithReason rows (marketOf p.2) p =
        some (demoteReason1 m (maxUnheldActiveByMarket m)) := by
      unfold demotedWithReason demotedWithReasonOf
      rw [hm, if_pos (List.mem_map_of_mem Prod.fst hp1)]
    exact applyPC_demoted rows p _ henum hd
  have hsub : ((eligIdx rows m).filter (fun p =>
      ((applyPortfolioConstraints rows).getD p.1 p.2).status == "active"))
      ⊆ stage1Survivors rows m := by
    intro p hp
    have h := List.mem_filter.mp hp
    have hactive : ((applyPortfolioConstraints rows).getD p.1 p.2).status = "active" :=
      beq_iff_eq.mp h.2
    have hnd1 : p ∉ stage1Demoted rows m := by
      intro hc
      have hfields := hdem p hc
      rw [hfields.2.1] at hactive
      exact absurd hactive (by decide)
    have hmemsorted : p ∈ sortByRankDesc (eligIdx rows m) :=
      (sortByRankDesc_perm _).mem_iff.mpr h.1
    have hsplit : p ∈ stage1Survivors rows m ∨ p ∈ stage1Demoted rows m := by
      unfold stage1Survivors stage1Demoted
      rw [← List.take_append_drop (maxUnheldActiveByMarket m)
        (sortByRankDesc (eligIdx rows m))] at hmemsorted
      exact List.mem_append.mp hmemsorted
    rcases hsplit with h1 | h2
    · exact h1
    · exact absurd h2 hnd1
  have hN : (stage1Survivors rows m).length ≤ maxUnheldActiveByMarket m := by
    unfold stage1Survivors
    rw [List.length_take]
    exact min_le_left _ _
  have hnodup : ((eligIdx rows m).filter (fun p =>
      ((applyPortfolioConstraints rows).getD p.1 p.2).status == "active")).Nodup :=
    (eligIdx_nodup rows m).filter _
  have hcount := (List.subperm_of_subset hnodup hsub).length_le
  refine ⟨le_trans hcount hN, ?_, hout, hdem⟩
  unfold stage1Demoted
  rw [List.length_drop, (sortByRankDesc_perm _).length_eq]

/-- One of 21 eligible HK signals: distinct descending scores, a distinct
    strategy code each, the top seven flagged high-risk. -/
def hkRow (i : ℕ) : SignalRow :=
  ⟨"HK", "active", "buy", "建仓", false, 100 - (i : ℚ), none,
    if i < 7 then "high" else "medium", "s" ++ toString i, false, [], ""⟩

def hkRows21 : List SignalRow := (List.range 21).map hkRow

theorem hkRows21_market (p : ℕ × SignalRow) (hp : p ∈ hkRows21.enum) :
    marketOf p.2 = "HK" := by
  have h1 : hkRows21[p.1]? = some p.2 := by
    obtain ⟨i, a⟩ := p
    exact List.mem_enum_iff_getElem?.mp hp
  have h2 : p.2 ∈ hkRows21 := by
    have h3 := List.getElem?_eq_some.mp h1
    obtain ⟨hlt, hget⟩ := h3
    rw [← hget]
    exact List.getElem_mem hlt
  unfold hkRows21 at h2
  obtain ⟨i, _, hEq⟩ := List.mem_map.mp h2
  rw [← hEq]
  rfl

set_option maxRecDepth 4000 in
theorem hk_stage1 : stage1Demoted hkRows21 "HK" = [(20, hkRow 20)] := by
  with_unfolding_all rfl

set_option maxRecDepth 4000 in
theorem hk_stage2 : stage2Demoted hkRows21 "HK" = [(6, hkRow 6)] := by
  with_unfolding_all rfl

set_option maxRecDepth 4000 in
theorem hk_survivors : stage1Survivors hkRows21 "HK" =
    (List.range 20).map (fun i => (i, hkRow i)) := by
  with_unfolding_all rfl

set_option maxRecDepth 4000 in
theorem hk_final : stage3Final hkRows21 "HK" =
    ((List.range 20).map (fun i => (i, hkRow i))).filter (fun p => p.1 ≠ 6) := by
  unfold stage3Final
  rw [hk_survivors, hk_stage2]
  with_unfolding_all rfl

set_option maxRecDepth 4000 in
theorem hk_cap : stage3CapPerStrategy hkRows21 "HK" = 8 := by
  unfold stage3CapPerStrategy
  rw [hk_final]
  with_unfolding_all rfl

set_option maxRecDepth 4000 in
theorem hk_stage3 : stage3Demoted hkRows21 "HK" = [] := by
  unfold stage3Demoted
  rw [hk_final, hk_cap]
  with_unfolding_all rfl

theorem hk_idx1 : (stage1Demoted hkRows21 "HK").map Prod.fst = [20] := by
  rw [hk_stage1]
  rfl

theorem hk_idx2 : (stage2Demoted hkRows21 "HK").map Prod.fst = [6] := by
  rw [hk_stage2]
  rfl

theorem hk_idx3 : (stage3Demoted hkRows21 "HK").map Prod.fst = ([] : List ℕ) := by
  rw [hk_stage3]
  rfl

set_option maxRecDepth 4000 in
/-- Counterexample to C2 as stated: an HK market (cap N = 20) with 21
    eligible buy signals, seven of them high-risk.  After the full pass 19
    signals remain active, not exactly 20: the top-N stage demotes one and
    the high-risk share cap (max(1, round(20·0.32)) = 6) then demotes a
    seventh high-risk survivor out of the top 20. -/
theorem portfolio_cap_counterexample :
    maxUnheldActiveByMarket "HK" < (eligIdx hkRows21 "HK").length ∧
    ((applyPortfolioConstraints hkRows21).filter (fun r => r.status == "active")).length
      = 19 := by
  constructor
  · exact of_decide_eq_true (by with_unfolding_all rfl)
  · have happly : applyPortfolioConstraints hkRows21 =
        (hkRows21.enum).map (fun p =>
          match demotedWithReasonOf [20] [6] [] "HK" p with
          | some reason => demoteSignal p.2 reason
          | none => p.2) := by
      unfold applyPortfolioConstraints
      apply List.map_congr_left
      intro p hp
      rw [hkRows21_market p hp]
      unfold demotedWithReason
      rw [hk_idx1, hk_idx2, hk_idx3]
    rw [happly]
    with_unfolding_all rfl

/-- Witness for the amended C2 at the same concrete HK pool: 21 eligible
    members exceed the cap of 20, and at most 20 of them remain active. -/
theorem portfolio_cap_witness :
    maxUnheldActiveByMarket "HK" < (eligIdx hkRows21 "HK").length ∧
    ((eligIdx hkRows21 "HK").filter (fun p =>
        ((applyPortfolioConstraints hkRows21).getD p.1 p.2).status == "active")).length
      ≤ maxUnheldActiveByMarket "HK" := by
  have hbig : maxUnheldActiveByMarket "HK" < (eligIdx hkRows21 "HK").length :=
    of_decide_eq_true (by with_unfolding_all rfl)
  exact ⟨hbig, (portfolio_cap hkRows21 "HK" hbig).1⟩

/-- Claim C10: the high-risk allowance `max(1, round(survivors·ratio))` is
    always at least 1; when exactly one high-risk signal survives the top-N
    cap the high-risk stage demotes nothing; the configured ratios are
    0.35/0.32/0.30 for CN/HK/US; and with a single survivor the realized
    high-risk share (1 of 1) exceeds every configured ratio. -/
theorem high_risk_allowance_floor (rows : List SignalRow) (m : String) (n : ℕ)
    (hone : ((stage1Survivors rows m).filter
      (fun p => p.2.riskLevel == "high")).length = 1) :
    1 ≤ allowHighCount n m ∧
    stage2Demoted rows m = [] ∧
    maxHighRiskRatioByMarket "CN" = 35/100 ∧
    maxHighRiskRatioByMarket "HK" = 32/100 ∧
    maxHighRiskRatioByMarket "US" = 30/100 ∧
    maxHighRiskRatioByMarket "CN" * 1 < (allowHighCount 1 "CN" : ℚ) ∧
    maxHighRiskRatioByMarket "HK" * 1 < (allowHighCount 1 "HK" : ℚ) ∧
    maxHighRiskRatioByMarket "US" * 1 < (allowHighCount 1 "US" : ℚ) := by
  refine ⟨Nat.le_max_left 1 _, ?_,
    by with_unfolding_all rfl, by with_unfolding_all rfl, by with_unfolding_all rfl,
    of_decide_eq_true (by with_unfolding_all rfl),
    of_decide_eq_true (by with_unfolding_all rfl),
    of_decide_eq_true (by with_unfolding_all rfl)⟩
  have hlen : (sortByRankDesc ((stage1Survivors rows m).filter
      (fun p => p.2.riskLevel == "high"))).length = 1 := by
    rw [(sortByRankDesc_perm _).length_eq]
    exact hone
  unfold stage2Demoted
  apply List.drop_eq_nil_of_le
  rw [hlen]
  exact Nat.le_max_left 1 _

/-- Three CN signals of which exactly one is high-risk. -/
def cnMixedRows : List SignalRow :=
  [⟨"CN", "active", "buy", "建仓", false, 90, none, "medium", "trend_follow", false, [], ""⟩,
   ⟨"CN", "active", "buy", "建仓", false, 80, none, "high", "volume_breakout", false, [], ""⟩,
   ⟨"CN", "active", "buy", "建仓", false, 70, none, "medium", "trend_follow", false, [], ""⟩]

/-- Witness for C10: with exactly one high-risk survivor in a CN pool of
    three, the high-risk stage demotes nothing. -/
theorem high_risk_allowance_floor_witness :
    ((stage1Survivors cnMixedRows "CN").filter
      (fun p => p.2.riskLevel == "high")).length = 1 ∧
    stage2Demoted cnMixedRows "CN" = [] := by
  have h1 : ((stage1Survivors cnMixedRows "CN").filter
      (fun p => p.2.riskLevel == "high")).length = 1 := by
    with_unfolding_all rfl
  exact ⟨h1, (high_risk_allowance_floor cnMixedRows "CN" 5 h1).2.1⟩

end PanWatch
